import Mathlib

/-!
Verification of the prop-bet contest application.

A shallow embedding of the application's data model and request handlers
(`src/app.py`): the relational store becomes a record of lists, each handler a
pure function from store (and form input) to store, and Python attribute
accesses that can hit a missing row are modelled in the `Option` monad, with
`none` standing for the uncaught exception the Python code would raise.

Primary keys are modelled by monotonic counters (`nextPropId`, ...) in the
store, matching the database sequences: a freshly inserted row always receives
an id strictly larger than every id handed out before.
-/

namespace SuperBowl

/-- The `Settings` model: two boolean flags (`src/app.py` lines 22-25). -/
structure SettingsRec where
  game_started : Bool
  submissions_locked : Bool
deriving Repr, DecidableEq

/-- The `Prop` model (`src/app.py` lines 27-36).  `order` is an `Int` because
the move operation can decrement it below zero; `correct_answer_id` is the
nullable foreign key. -/
structure PropRec where
  id : Nat
  question : String
  note : Option String
  order : Int
  resolved : Bool
  correct_answer_id : Option Nat
deriving Repr, DecidableEq

/-- The `Answer` model (`src/app.py` lines 38-43). -/
structure AnswerRec where
  id : Nat
  prop_id : Nat
  text : String
  points : Int
  order : Nat
deriving Repr, DecidableEq

/-- The `Entry` model (`src/app.py` lines 45-50). -/
structure EntryRec where
  id : Nat
  name : String
deriving Repr, DecidableEq

/-- The `Pick` model (`src/app.py` lines 52-59). -/
structure PickRec where
  id : Nat
  entry_id : Nat
  prop_id : Nat
  answer_id : Nat
deriving Repr, DecidableEq

/-- The whole relational store, plus the id sequences. -/
structure Store where
  settings : SettingsRec
  props : List PropRec
  answers : List AnswerRec
  entries : List EntryRec
  picks : List PickRec
  nextPropId : Nat
  nextAnswerId : Nat
  nextEntryId : Nat
  nextPickId : Nat
deriving Repr, DecidableEq

/-- The store right after `db.create_all()` plus `get_settings()` at startup
(`src/app.py` lines 479-482): empty tables, default settings. -/
def initStore : Store :=
  { settings := { game_started := false, submissions_locked := false }
    props := [], answers := [], entries := [], picks := []
    nextPropId := 1, nextAnswerId := 1, nextEntryId := 1, nextPickId := 1 }

/-- SQLAlchemy's `pick.prop` relationship: look the row up by primary key;
`none` models the dangling relationship (`pick.prop is None`). -/
def findProp (props : List PropRec) (pid : Nat) : Option PropRec :=
  props.find? (fun p => p.id == pid)

/-- SQLAlchemy's `pick.answer` relationship. -/
def findAnswer (answers : List AnswerRec) (aid : Nat) : Option AnswerRec :=
  answers.find? (fun a => a.id == aid)

/-- The `entry.picks` relationship: all picks whose `entry_id` is this entry. -/
def entryPicks (s : Store) (e : EntryRec) : List PickRec :=
  s.picks.filter (fun pk => pk.entry_id == e.id)

/-- One iteration of the loop in `calculate_score` (`src/app.py` lines 82-84):
`if pick.prop.resolved and pick.prop.correct_answer_id == pick.answer_id:
total += pick.answer.points`.  A missing `pick.prop` (or missing `pick.answer`
on the taken branch) raises in Python, hence `none`. -/
def scoreStep (s : Store) (total : Int) (pk : PickRec) : Option Int := do
  let p ← findProp s.props pk.prop_id
  if p.resolved && p.correct_answer_id == some pk.answer_id then
    let a ← findAnswer s.answers pk.answer_id
    pure (total + a.points)
  else
    pure total

/-- `calculate_score` (`src/app.py` lines 79-85). -/
def calculate_score (s : Store) (e : EntryRec) : Option Int :=
  (entryPicks s e).foldlM (scoreStep s) 0

/-- `get_pick_status` (`src/app.py` lines 87-93); `none` models the
`AttributeError` raised when `pick.prop` is `None`. -/
def get_pick_status (s : Store) (pk : PickRec) : Option String := do
  let p ← findProp s.props pk.prop_id
  if !p.resolved then
    pure "pending"
  else if p.correct_answer_id == some pk.answer_id then
    pure "correct"
  else
    pure "incorrect"

/-- Whether a pick scores: its prop exists, is resolved, and the pick matches
the prop's correct answer.  This is the guard on line 83 of `src/app.py`. -/
def pickCounts (s : Store) (pk : PickRec) : Bool :=
  match findProp s.props pk.prop_id with
  | some p => p.resolved && p.correct_answer_id == some pk.answer_id
  | none => false

/-- The points the pick's chosen answer is worth (0 if the answer row is
missing; only read when `pickCounts` holds). -/
def pickPoints (s : Store) (pk : PickRec) : Int :=
  match findAnswer s.answers pk.answer_id with
  | some a => a.points
  | none => 0

/-- The specification's description of the score: the sum of `answer.points`
over exactly the picks whose prop is resolved with a matching answer. -/
def specScore (s : Store) (e : EntryRec) : Int :=
  (((entryPicks s e).filter (pickCounts s)).map (pickPoints s)).sum

/-- `admin_settings` (`src/app.py` lines 256-277): the four recognised actions
mutate the settings singleton; anything else is a no-op. -/
def admin_settings (st : SettingsRec) (action : String) : SettingsRec :=
  if action == "start_game" then
    { st with game_started := true, submissions_locked := true }
  else if action == "stop_game" then
    { st with game_started := false }
  else if action == "lock_submissions" then
    { st with submissions_locked := true }
  else if action == "unlock_submissions" then
    { st with submissions_locked := false }
  else
    st

/-- Python's `str.strip()`: drop whitespace from both ends.  Written by
structural recursion over the character list (rather than `String.trim`, whose
by-position recursion the kernel cannot evaluate) so that concrete stores
compute. -/
def pyStrip (s : String) : String :=
  ⟨((s.data.dropWhile Char.isWhitespace).reverse.dropWhile Char.isWhitespace).reverse⟩

/-- Python's `str.lower()` on the ASCII names this application handles. -/
def pyLower (s : String) : String :=
  ⟨s.data.map Char.toLower⟩

/-- One row of the `answer_text[]` / `answer_points[]` form arrays presented to
the add/edit prop handlers: the text field and the points field, `none` for an
empty points box (`int(points) if points else 1`). -/
abbrev AnswerRow := String × Option Int

/-- The form posted to `admin_add_prop` / `admin_edit_prop`. -/
structure PropForm where
  question : String
  note : String
  answers : List AnswerRow
deriving Repr, DecidableEq

/-- The answer-creation loop of `admin_add_prop` / `admin_edit_prop`
(`src/app.py` lines 307-315 and 339-347): rows with blank (trimmed) text are
skipped but still consume the `enumerate` index that becomes `Answer.order`;
kept rows receive consecutive fresh ids. -/
def mkAnswers (pid : Nat) : Nat → Nat → List AnswerRow → List AnswerRec
  | _, _, [] => []
  | sid, i, (t, pts) :: rest =>
    if pyStrip t == "" then
      mkAnswers pid sid (i + 1) rest
    else
      { id := sid, prop_id := pid, text := pyStrip t,
        points := pts.getD 1, order := i } :: mkAnswers pid (sid + 1) (i + 1) rest

/-- How many rows of the form survive the blank-text filter (how many `Answer`
rows get inserted). -/
def keptRows (rows : List AnswerRow) : Nat :=
  (rows.filter (fun r => !(pyStrip r.1 == ""))).length

/-- Python's `x or 0` applied to the nullable `max(Prop.order)` scalar
(`src/app.py` line 297): `None` and `0` both collapse to `0`. -/
def pyMaxOr0 : Option Int → Int
  | none => 0
  | some v => if v == 0 then 0 else v

/-- `admin_add_prop`, POST branch (`src/app.py` lines 285-321): a blank
question is rejected with no mutation; otherwise a new `Prop` is inserted with
`order = max_order + 1` together with its answers. -/
def admin_add_prop (s : Store) (form : PropForm) : Store :=
  if pyStrip form.question == "" then
    s
  else
    let max_order := pyMaxOr0 (s.props.map (fun p => p.order)).max?
    let newProp : PropRec :=
      { id := s.nextPropId, question := pyStrip form.question,
        note := if pyStrip form.note == "" then none else some (pyStrip form.note),
        order := max_order + 1, resolved := false, correct_answer_id := none }
    { s with
      props := s.props ++ [newProp]
      answers := s.answers ++ mkAnswers s.nextPropId s.nextAnswerId 0 form.answers
      nextPropId := s.nextPropId + 1
      nextAnswerId := s.nextAnswerId + keptRows form.answers }

/-- The per-row effect of `admin_edit_prop` on the prop with the edited id:
overwrite question and note, touch nothing else (`src/app.py` lines 329-330). -/
def editUpd (pid : Nat) (form : PropForm) (p : PropRec) : PropRec :=
  if p.id == pid then
    { p with question := pyStrip form.question,
             note := if pyStrip form.note == "" then none
                     else some (pyStrip form.note) }
  else p

/-- `admin_edit_prop`, POST branch (`src/app.py` lines 323-353): 404 when the
prop id is unknown (no mutation); otherwise overwrite question/note, delete
every `Answer` of the prop, and insert fresh answers from the form.  `resolved`,
`correct_answer_id`, `order` and all picks are untouched. -/
def admin_edit_prop (s : Store) (pid : Nat) (form : PropForm) : Store :=
  if s.props.any (fun p => p.id == pid) then
    { s with
      props := s.props.map (editUpd pid form)
      answers := s.answers.filter (fun a => !(a.prop_id == pid))
        ++ mkAnswers pid s.nextAnswerId 0 form.answers
      nextAnswerId := s.nextAnswerId + keptRows form.answers }
  else
    s

/-- The per-row effect of `admin_resolve_prop` on the prop with the posted id:
with an `answer_id`, record it and mark resolved; without one, clear both
(`src/app.py` lines 415-422). -/
def resolveUpd (pid : Nat) (answer_id : Option Nat) (p : PropRec) : PropRec :=
  if p.id == pid then
    match answer_id with
    | some aid => { p with correct_answer_id := some aid, resolved := true }
    | none => { p with correct_answer_id := none, resolved := false }
  else p

/-- `admin_resolve_prop` (`src/app.py` lines 409-425): with an `answer_id` in
the form, mark resolved and record it (no validation that the answer exists or
belongs to this prop); with no `answer_id`, unresolve and clear.  404 when the
prop id is unknown. -/
def admin_resolve_prop (s : Store) (pid : Nat) (answer_id : Option Nat) : Store :=
  if s.props.any (fun p => p.id == pid) then
    { s with props := s.props.map (resolveUpd pid answer_id) }
  else
    s

/-- The query sort `Prop.query.order_by(Prop.order, Prop.id)`: ascending
`order`, ties broken by ascending `id`. -/
def propLe (a b : PropRec) : Prop :=
  a.order < b.order ∨ (a.order = b.order ∧ a.id ≤ b.id)

instance : DecidableRel propLe := fun a b => by
  unfold propLe; infer_instance

instance : IsTotal PropRec propLe := by
  constructor
  intro a b
  rcases lt_trichotomy a.order b.order with h | h | h
  · exact Or.inl (Or.inl h)
  · rcases Nat.le_total a.id b.id with h2 | h2
    · exact Or.inl (Or.inr ⟨h, h2⟩)
    · exact Or.inr (Or.inr ⟨h.symm, h2⟩)
  · exact Or.inr (Or.inl h)

instance : IsTrans PropRec propLe := by
  constructor
  rintro a b c (h | ⟨h, h2⟩) (h3 | ⟨h3, h4⟩)
  · exact Or.inl (h.trans h3)
  · exact Or.inl (h3 ▸ h)
  · exact Or.inl (h ▸ h3)
  · exact Or.inr ⟨h.trans h3, h2.trans h4⟩

/-- The `(order asc, id asc)`-sorted prop list used by every listing and by the
move operation. -/
def sortedProps (ps : List PropRec) : List PropRec :=
  ps.insertionSort propLe

/-- Overwrite the `order` field of the row with id `xid` to `xo` and of the
row with id `yid` to `yo`. -/
def swapOrdersFn (xid : Nat) (xo : Int) (yid : Nat) (yo : Int) (q : PropRec) : PropRec :=
  if q.id == xid then { q with order := xo }
  else if q.id == yid then { q with order := yo }
  else q

/-- Overwrite the `order` fields of the two swapped props, by id, in place
(the two attribute assignments plus commit in `admin_move_prop`). -/
def applyOrders (s : Store) (aid : Nat) (ao : Int) (bid : Nat) (bo : Int) : Store :=
  { s with props := s.props.map (swapOrdersFn aid ao bid bo) }

/-- `admin_move_prop` (`src/app.py` lines 371-401): find the prop's index in
the sorted list; "up" swaps `order` with the previous prop, "down" with the
next, nudging the moved prop's `order` by ∓1 when the two values were equal;
anything else (ends, unknown direction, unknown id) leaves the store alone. -/
def admin_move_prop (s : Store) (pid : Nat) (direction : String) : Store :=
  match (sortedProps s.props).findIdx? (fun p => p.id == pid) with
  | none => s
  | some i =>
    if direction == "up" && decide (0 < i) then
      match (sortedProps s.props)[i]?, (sortedProps s.props)[i - 1]? with
      | some a, some b =>
        applyOrders s a.id (if b.order == a.order then b.order - 1 else b.order) b.id a.order
      | _, _ => s
    else if direction == "down" && decide (i + 1 < (sortedProps s.props).length) then
      match (sortedProps s.props)[i]?, (sortedProps s.props)[i + 1]? with
      | some a, some b =>
        applyOrders s a.id (if b.order == a.order then b.order + 1 else b.order) b.id a.order
      | _, _ => s
    else
      s

/-- The form posted to `/prop-sheet`: the name field and the `prop_<id>`
radio selections as an association list from prop id to answer id. -/
structure SheetForm where
  name : String
  picks : List (Nat × Nat)
deriving Repr, DecidableEq

/-- The possible outcomes of a POST to `/prop-sheet`. -/
inductive SheetResult where
  | locked
  | blankName
  | duplicateName
  | success (entryId : Nat)
deriving Repr, DecidableEq

/-- `prop_sheet`, POST branch (`src/app.py` lines 107-146): rejected while
submissions are locked, on a blank trimmed name, or on a case-insensitive
duplicate name — each with no mutation; otherwise an `Entry` is created plus
one `Pick` per prop the form selected an answer for, in `(order, id)`-sorted
prop order. -/
def prop_sheet_post (s : Store) (f : SheetForm) : Store × SheetResult :=
  if s.settings.submissions_locked then
    (s, .locked)
  else
    let name := pyStrip f.name
    if name == "" then
      (s, .blankName)
    else if s.entries.any (fun e => pyLower e.name == pyLower name) then
      (s, .duplicateName)
    else
      let eid := s.nextEntryId
      let chosen := (sortedProps s.props).filterMap
        (fun p => (f.picks.lookup p.id).map (fun aid => (p.id, aid)))
      let newPicks := chosen.enum.map (fun x =>
        { id := s.nextPickId + x.1, entry_id := eid,
          prop_id := x.2.1, answer_id := x.2.2 : PickRec })
      ({ s with
          entries := s.entries ++ [{ id := eid, name := name }]
          picks := s.picks ++ newPicks
          nextEntryId := eid + 1
          nextPickId := s.nextPickId + newPicks.length },
        .success eid)

/-- One row of the `/api/standings` payload. -/
structure StandingRec where
  name : String
  score : Int
  id : Nat
deriving Repr, DecidableEq

/-- The JSON response of `/api/standings`: either the error payload with its
HTTP status, or the success payload. -/
inductive ApiStandingsResult where
  | error (status : Nat) (msg : String)
  | ok (standings : List StandingRec) (resolved : Nat) (total : Nat)
deriving Repr, DecidableEq

/-- The loop of `api_standings` building one `{name, score, id}` row per entry;
`none` models the exception should any score computation raise. -/
def scoreRows (s : Store) : List EntryRec → Option (List StandingRec)
  | [] => some []
  | e :: rest => do
    let sc ← calculate_score s e
    let tail ← scoreRows s rest
    pure ({ name := e.name, score := sc, id := e.id } :: tail)

/-- `standings_data.sort(key=..., reverse=True)`: descending by score. -/
def scoreGe (a b : StandingRec) : Prop :=
  b.score ≤ a.score

instance : DecidableRel scoreGe := fun a b => by
  unfold scoreGe; infer_instance

instance : IsTotal StandingRec scoreGe := by
  constructor
  intro a b
  exact (le_total b.score a.score).imp (fun h => h) (fun h => h)

instance : IsTrans StandingRec scoreGe := by
  constructor
  intro a b c h h2
  exact le_trans h2 h

/-- `api_standings` (`src/app.py` lines 449-475). -/
def api_standings (s : Store) : Option ApiStandingsResult :=
  if !s.settings.game_started then
    some (.error 403 "Game not started")
  else do
    let rows ← scoreRows s s.entries
    pure (.ok (rows.insertionSort scoreGe)
      ((s.props.filter (fun p => p.resolved)).length)
      s.props.length)

/-- The states reachable from the fresh database through the three admin
prop operations named by the reachability claim: add, edit, resolve. -/
inductive Reachable : Store → Prop where
  | init : Reachable initStore
  | add (s : Store) (form : PropForm) : Reachable s → Reachable (admin_add_prop s form)
  | edit (s : Store) (pid : Nat) (form : PropForm) :
      Reachable s → Reachable (admin_edit_prop s pid form)
  | resolve (s : Store) (pid : Nat) (aid : Option Nat) :
      Reachable s → Reachable (admin_resolve_prop s pid aid)

/-- The spec's resolved-prop invariant, as a decidable check: every resolved
prop's `correct_answer_id` names an `Answer` row whose `prop_id` is that
prop. -/
def resolvedRefsOwnAnswer (s : Store) : Bool :=
  s.props.all (fun p =>
    !p.resolved || s.answers.any (fun a =>
      some a.id == p.correct_answer_id && a.prop_id == p.id))

/-! ### Concrete stores used by witnesses and counterexamples -/

/-- A prop row with the given id and sort key and default flags. -/
def mkTestProp (i : Nat) (o : Int) : PropRec :=
  { id := i, question := "q", note := none, order := o
    resolved := false, correct_answer_id := none }

def formA : PropForm := { question := "q1", note := "", answers := [("a", some 1)] }

def formB : PropForm := { question := "q2", note := "", answers := [("b", some 1)] }

def entryE : EntryRec := { id := 1, name := "E" }

/-- A store with one resolved prop (correct answer 1, worth 5 points), one
entry, and one correct pick. -/
def store3 : Store :=
  { initStore with
    props := [{ mkTestProp 1 1 with resolved := true, correct_answer_id := some 1 }]
    answers := [{ id := 1, prop_id := 1, text := "a", points := 5, order := 0 }]
    entries := [entryE]
    picks := [{ id := 1, entry_id := 1, prop_id := 1, answer_id := 1 }]
    nextPropId := 2, nextAnswerId := 2, nextEntryId := 2, nextPickId := 2 }

/-- The single (resolved) prop row of `store3`. -/
def prop3 : PropRec :=
  { mkTestProp 1 1 with resolved := true, correct_answer_id := some 1 }

/-- `store3` with the prop still unresolved. -/
def store3u : Store :=
  { store3 with props := [mkTestProp 1 1] }

/-- A store whose only pick references a prop id (99) with no `Prop` row. -/
def store5 : Store :=
  { initStore with
    entries := [entryE]
    picks := [{ id := 1, entry_id := 1, prop_id := 99, answer_id := 1 }]
    nextEntryId := 2, nextPickId := 2 }

def pick5 : PickRec := { id := 1, entry_id := 1, prop_id := 99, answer_id := 1 }

/-- `store3` with the game started (for the standings endpoint). -/
def store6 : Store :=
  { store3 with settings := { game_started := true, submissions_locked := true } }

/-- Three props whose `(order, id)`-sorted list is
`[(order 3, id 5), (order 3, id 6), (order 4, id 2)]`: a duplicated `order`
value together with an id out of line with the sort order. -/
def store4 : Store :=
  { initStore with
    props := [mkTestProp 5 3, mkTestProp 6 3, mkTestProp 2 4]
    nextPropId := 7 }

/-- Three props with pairwise distinct orders, for the move witness. -/
def store4w : Store :=
  { initStore with
    props := [mkTestProp 1 1, mkTestProp 2 2, mkTestProp 3 3]
    nextPropId := 4 }

/-- Reached from the fresh store by adding two one-answer props and then
resolving prop 1 with prop 2's answer: the resolve handler accepts the foreign
answer id without validation. -/
def store2 : Store :=
  admin_resolve_prop (admin_add_prop (admin_add_prop initStore formA) formB) 1 (some 2)

/-- Reached by adding one prop and resolving it with its own answer. -/
def store2w : Store :=
  admin_resolve_prop (admin_add_prop initStore formA) 1 (some 1)

/-- The single prop row of `store2w`. -/
def prop2w : PropRec :=
  { id := 1, question := "q1", note := none, order := 1
    resolved := true, correct_answer_id := some 1 }

/-- A store with locked submissions. -/
def store8 : Store :=
  { store3 with settings := { game_started := false, submissions_locked := true } }

def form8 : SheetForm := { name := "X", picks := [(1, 1)] }

/-! ### Claim theorems -/

/-- C7: after `start_game` both `game_started` and `submissions_locked` are
true, whatever the prior settings; `stop_game` clears `game_started` and
leaves `submissions_locked` as it was. -/
theorem admin_settings_start_stop (st : SettingsRec) :
    (admin_settings st "start_game").game_started = true ∧
    (admin_settings st "start_game").submissions_locked = true ∧
    (admin_settings st "stop_game").game_started = false ∧
    (admin_settings st "stop_game").submissions_locked = st.submissions_locked :=
  ⟨rfl, rfl, rfl, rfl⟩

/-- C8: while `submissions_locked` is set, a POST to `/prop-sheet` is rejected
with the locked message and the store — entries and picks included — is
returned unchanged, whatever the form says. -/
theorem locked_submission_rejected (s : Store) (f : SheetForm)
    (h : s.settings.submissions_locked = true) :
    prop_sheet_post s f = (s, SheetResult.locked) := by
  simp [prop_sheet_post, h]

/-- Witness for `locked_submission_rejected` at a concrete locked store. -/
theorem locked_submission_rejected_witness :
    prop_sheet_post store8 form8 = (store8, SheetResult.locked) :=
  locked_submission_rejected store8 form8 (by decide)

/-- C5: the code does not survive a pick whose prop row is absent: evaluating
`pick.prop.resolved` on the missing relationship raises, modelled here by
`none` — so neither does `calculate_score` return 0 for such a pick, nor does
`get_pick_status` return "pending". -/
theorem calculate_score_missing_prop_raises :
    calculate_score store5 entryE = none ∧ get_pick_status store5 pick5 = none := by
  decide

/-- C9: a successfully added prop is appended with
`order = max(existing orders) + 1`, or `1` when no prop exists (Python's
`or 0` collapses an empty maximum to 0). -/
theorem add_prop_order_spec (s : Store) (form : PropForm)
    (h : pyStrip form.question ≠ "") :
    ∃ p : PropRec, (admin_add_prop s form).props = s.props ++ [p] ∧
      p.order = (match (s.props.map (fun q => q.order)).max? with
        | none => 1
        | some m => m + 1) := by
  have hq : (pyStrip form.question == "") = false := by
    simpa using h
  refine ⟨{ id := s.nextPropId, question := pyStrip form.question,
            note := if pyStrip form.note == "" then none else some (pyStrip form.note),
            order := pyMaxOr0 (s.props.map (fun p => p.order)).max? + 1,
            resolved := false, correct_answer_id := none }, ?_, ?_⟩
  · simp [admin_add_prop, hq]
  · show pyMaxOr0 (s.props.map (fun q => q.order)).max? + 1 = _
    cases hm : (s.props.map (fun q => q.order)).max? with
    | none => simp [pyMaxOr0]
    | some m =>
      simp only [pyMaxOr0]
      split
      · next h2 => rw [show m = 0 by simpa using h2]
      · rfl

/-- Witness for `add_prop_order_spec`: adding to `store3` (maximal order 1)
appends a prop with order 2. -/
theorem add_prop_order_spec_witness :
    ∃ p : PropRec, (admin_add_prop store3 formA).props = store3.props ++ [p] ∧
      p.order = (match (store3.props.map (fun q => q.order)).max? with
        | none => 1
        | some m => m + 1) :=
  add_prop_order_spec store3 formA (by decide)

/-- The score loop, one pick at a time: when every pick's prop row exists (and
the chosen answer row exists whenever the pick scores), the fold never raises
and accumulates exactly the points of the scoring picks. -/
theorem scoreFold (s : Store) (l : List PickRec) (acc : Int)
    (hp : ∀ pk ∈ l, (findProp s.props pk.prop_id).isSome)
    (ha : ∀ pk ∈ l, pickCounts s pk = true → (findAnswer s.answers pk.answer_id).isSome) :
    l.foldlM (scoreStep s) acc
      = some (acc + ((l.filter (pickCounts s)).map (pickPoints s)).sum) := by
  induction l generalizing acc with
  | nil => simp
  | cons pk l ih =>
    have hp2 : ∀ x ∈ l, (findProp s.props x.prop_id).isSome :=
      fun x hx => hp x (List.mem_cons_of_mem pk hx)
    have ha2 : ∀ x ∈ l, pickCounts s x = true → (findAnswer s.answers x.answer_id).isSome :=
      fun x hx => ha x (List.mem_cons_of_mem pk hx)
    obtain ⟨p, hfp⟩ := Option.isSome_iff_exists.mp (hp pk (List.mem_cons_self pk l))
    cases hc : pickCounts s pk with
    | true =>
      obtain ⟨a, hfa⟩ := Option.isSome_iff_exists.mp (ha pk (List.mem_cons_self pk l) hc)
      have hcond : (p.resolved && p.correct_answer_id == some pk.answer_id) = true := by
        unfold pickCounts at hc
        rw [hfp] at hc
        exact hc
      have hpts : pickPoints s pk = a.points := by
        unfold pickPoints
        rw [hfa]
      have hstep : scoreStep s acc pk = some (acc + a.points) := by
        unfold scoreStep
        rw [hfp, Option.bind_eq_bind, Option.some_bind, if_pos hcond, hfa,
          Option.bind_eq_bind, Option.some_bind]
        rfl
      rw [List.foldlM_cons, hstep]
      show List.foldlM (scoreStep s) (acc + a.points) l = _
      rw [ih (acc + a.points) hp2 ha2]
      simp [List.filter_cons, hc, hpts]
      omega
    | false =>
      have hcond : (p.resolved && p.correct_answer_id == some pk.answer_id) = false := by
        unfold pickCounts at hc
        rw [hfp] at hc
        exact hc
      have hstep : scoreStep s acc pk = some acc := by
        unfold scoreStep
        rw [hfp, Option.bind_eq_bind, Option.some_bind, if_neg (by simp [hcond])]
        rfl
      rw [List.foldlM_cons, hstep]
      show List.foldlM (scoreStep s) acc l = _
      rw [ih acc hp2 ha2]
      simp [List.filter_cons, hc]

/-- C1: when every pick references an existing prop (and its answer row exists
whenever it scores) and all point values are non-negative, `calculate_score`
returns exactly the sum of `answer.points` over the picks whose prop is
resolved with `answer_id = correct_answer_id`, and that value is
non-negative. -/
theorem calculate_score_eq_specScore (s : Store) (e : EntryRec)
    (hp : ∀ pk ∈ entryPicks s e, (findProp s.props pk.prop_id).isSome)
    (ha : ∀ pk ∈ entryPicks s e, pickCounts s pk = true →
      (findAnswer s.answers pk.answer_id).isSome)
    (hpts : ∀ a ∈ s.answers, 0 ≤ a.points) :
    calculate_score s e = some (specScore s e) ∧ 0 ≤ specScore s e := by
  constructor
  · have := scoreFold s (entryPicks s e) 0 hp ha
    simpa [calculate_score, specScore] using this
  · apply List.sum_nonneg
    intro x hx
    obtain ⟨pk, hpk, rfl⟩ := List.mem_map.mp hx
    unfold pickPoints
    cases hfa : findAnswer s.answers pk.answer_id with
    | none => exact le_refl 0
    | some a => exact hpts a (List.mem_of_find?_eq_some hfa)

/-- Witness for `calculate_score_eq_specScore` on `store3` (one correct
5-point pick). -/
theorem calculate_score_eq_specScore_witness :
    calculate_score store3 entryE = some (specScore store3 entryE) ∧
      0 ≤ specScore store3 entryE :=
  calculate_score_eq_specScore store3 entryE (by decide) (by decide) (by decide)

/-- C2 counterexample: a state reachable by add, add, resolve in which a
resolved prop's `correct_answer_id` names an answer of a *different* prop —
the resolve handler stores whatever answer id the form posts. -/
theorem resolve_breaks_own_answer_invariant :
    Reachable store2 ∧ resolvedRefsOwnAnswer store2 = false :=
  ⟨Reachable.resolve _ 1 (some 2)
      (Reachable.add _ formB (Reachable.add _ formA Reachable.init)),
    by decide⟩

/-- C2 amended: through add/edit/resolve the weaker invariant that does hold is
that a resolved prop always carries *some* `correct_answer_id` (resolve sets
both fields together, unresolve clears both, add creates unresolved props, and
edit never touches either field). -/
theorem resolved_implies_correct_answer_present (s : Store) (hs : Reachable s) :
    ∀ p ∈ s.props, p.resolved = true → p.correct_answer_id ≠ none := by
  induction hs with
  | init =>
    intro p hp
    simp [initStore] at hp
  | add s0 form _ ih =>
    intro p hp hr
    unfold admin_add_prop at hp
    by_cases hq : (pyStrip form.question == "") = true
    · rw [if_pos hq] at hp
      exact ih p hp hr
    · rw [if_neg hq] at hp
      simp only at hp
      rcases List.mem_append.mp hp with h1 | h1
      · exact ih p h1 hr
      · simp only [List.mem_singleton] at h1
        subst h1
        simp at hr
  | edit s0 pid form _ ih =>
    intro p hp hr
    unfold admin_edit_prop at hp
    by_cases hq : (s0.props.any (fun q => q.id == pid)) = true
    · rw [if_pos hq] at hp
      simp only at hp
      obtain ⟨q, hq2, rfl⟩ := List.mem_map.mp hp
      unfold editUpd at hr ⊢
      by_cases hid : (q.id == pid) = true
      · rw [if_pos hid] at hr ⊢
        exact ih q hq2 hr
      · rw [if_neg hid] at hr ⊢
        exact ih q hq2 hr
    · rw [if_neg hq] at hp
      exact ih p hp hr
  | resolve s0 pid aid _ ih =>
    intro p hp hr
    unfold admin_resolve_prop at hp
    by_cases hq : (s0.props.any (fun q => q.id == pid)) = true
    · rw [if_pos hq] at hp
      simp only at hp
      obtain ⟨q, hq2, rfl⟩ := List.mem_map.mp hp
      unfold resolveUpd at hr ⊢
      by_cases hid : (q.id == pid) = true
      · rw [if_pos hid] at hr ⊢
        cases aid with
        | none => simp at hr
        | some a => simp
      · rw [if_neg hid] at hr ⊢
        exact ih q hq2 hr
    · rw [if_neg hq] at hp
      exact ih p hp hr

/-- Witness for `resolved_implies_correct_answer_present` at the reachable
store `store2w`, whose prop 1 is resolved. -/
theorem resolved_implies_correct_answer_present_witness :
    prop2w.correct_answer_id ≠ none :=
  resolved_implies_correct_answer_present store2w
    (Reachable.resolve _ 1 (some 1) (Reachable.add _ formA Reachable.init))
    prop2w (by decide) (by decide)

/-- When every entry's score computes, the row-building loop of
`api_standings` succeeds and produces one `{name, score, id}` record per entry
in order. -/
theorem scoreRows_eq (s : Store) (l : List EntryRec)
    (h : ∀ e ∈ l, (calculate_score s e).isSome) :
    scoreRows s l = some (l.map (fun e =>
      { name := e.name, score := (calculate_score s e).getD 0, id := e.id })) := by
  induction l with
  | nil => rfl
  | cons e l ih =>
    obtain ⟨v, hv⟩ := Option.isSome_iff_exists.mp (h e (List.mem_cons_self e l))
    have ihl := ih (fun x hx => h x (List.mem_cons_of_mem e hx))
    unfold scoreRows
    rw [hv, Option.bind_eq_bind, Option.some_bind, ihl, Option.bind_eq_bind,
      Option.some_bind]
    simp [hv]

/-- C6: `/api/standings` answers 403 with `{error: "Game not started"}` exactly
while `game_started` is false; once started (and with every score computable)
it returns the per-entry `{name, score, id}` rows sorted by score descending,
together with the resolved and total prop counts. -/
theorem api_standings_spec (s : Store) :
    (s.settings.game_started = false →
      api_standings s = some (ApiStandingsResult.error 403 "Game not started")) ∧
    (s.settings.game_started = true →
      (∀ e ∈ s.entries, (calculate_score s e).isSome) →
      ∃ rows, api_standings s = some (ApiStandingsResult.ok rows
          ((s.props.filter (fun p => p.resolved)).length) s.props.length) ∧
        List.Pairwise scoreGe rows ∧
        rows.Perm (s.entries.map (fun e =>
          { name := e.name, score := (calculate_score s e).getD 0, id := e.id }))) := by
  constructor
  · intro h
    simp [api_standings, h]
  · intro h hdef
    refine ⟨(s.entries.map (fun e =>
      { name := e.name, score := (calculate_score s e).getD 0,
        id := e.id : StandingRec })).insertionSort scoreGe, ?_, ?_, ?_⟩
    · unfold api_standings
      rw [if_neg (by simp [h]), scoreRows_eq s s.entries hdef, Option.bind_eq_bind,
        Option.some_bind]
      rfl
    · exact List.sorted_insertionSort scoreGe _
    · exact List.perm_insertionSort scoreGe _

/-- Witness for `api_standings_spec` at `store6` (game started, one entry). -/
theorem api_standings_spec_witness :
    ∃ rows, api_standings store6 = some (ApiStandingsResult.ok rows
        ((store6.props.filter (fun p => p.resolved)).length) store6.props.length) ∧
      List.Pairwise scoreGe rows ∧
      rows.Perm (store6.entries.map (fun e =>
        { name := e.name, score := (calculate_score store6 e).getD 0, id := e.id })) :=
  (api_standings_spec store6).2 (by decide) (by decide)

/-- Looking a row up by id commutes with mapping an id-preserving update over
the table. -/
theorem find?_map_idPreserving (f : PropRec → PropRec) (hf : ∀ q, (f q).id = q.id)
    (l : List PropRec) (n : Nat) :
    (l.map f).find? (fun p => p.id == n) = (l.find? (fun p => p.id == n)).map f := by
  induction l with
  | nil => rfl
  | cons q l ih =>
    by_cases h : (q.id == n) = true
    · rw [List.map_cons,
        @List.find?_cons_of_pos PropRec (fun p => p.id == n) (f q) (l.map f)
          (by show ((f q).id == n) = true; rw [hf q]; exact h),
        @List.find?_cons_of_pos PropRec (fun p => p.id == n) q l h, Option.map_some']
    · rw [List.map_cons,
        @List.find?_cons_of_neg PropRec (fun p => p.id == n) (f q) (l.map f)
          (by show ¬((f q).id == n) = true; rw [hf q]; exact h),
        @List.find?_cons_of_neg PropRec (fun p => p.id == n) q l h, ih]

/-- Two `Option`-valued folds agree when their step functions agree on every
element of the list. -/
theorem foldlM_option_congr {α β : Type} (f g : β → α → Option β) (l : List α)
    (h : ∀ b x, x ∈ l → f b x = g b x) (init : β) :
    l.foldlM f init = l.foldlM g init := by
  induction l generalizing init with
  | nil => rfl
  | cons x l ih =>
    rw [List.foldlM_cons, List.foldlM_cons, h init x (List.mem_cons_self x l)]
    cases hg : g init x with
    | none => rfl
    | some b =>
      simp only [Option.bind_eq_bind, Option.some_bind]
      exact ih (fun b2 y hy => h b2 y (List.mem_cons_of_mem x hy)) b

/-- The resolve update never changes a prop's id. -/
theorem resolveUpd_id (pid : Nat) (aid : Option Nat) (q : PropRec) :
    (resolveUpd pid aid q).id = q.id := by
  unfold resolveUpd
  by_cases h : (q.id == pid) = true
  · rw [if_pos h]
    cases aid <;> rfl
  · rw [if_neg h]

/-- Resolving and then unresolving the same prop row is the same row update as
unresolving it directly. -/
theorem resolveUpd_comp (pid : Nat) (aid : Nat) (q : PropRec) :
    resolveUpd pid none (resolveUpd pid (some aid) q) = resolveUpd pid none q := by
  by_cases h : (q.id == pid) = true
  · simp [resolveUpd, h]
  · simp [resolveUpd, h]

/-- `scoreStep` only reads the prop table and the answer table. -/
theorem scoreStep_set_props (s : Store) (X : List PropRec) (acc : Int) (pk : PickRec) :
    scoreStep { s with props := X } acc pk
      = (findProp X pk.prop_id >>= fun p =>
        if p.resolved && p.correct_answer_id == some pk.answer_id then
          findAnswer s.answers pk.answer_id >>= fun a => pure (acc + a.points)
        else pure acc) := rfl

/-- Replacing the prop table leaves `calculate_score` unchanged whenever each
per-pick step is unchanged. -/
theorem calculate_score_set_props (s : Store) (X : List PropRec) (e : EntryRec)
    (hstep : ∀ acc pk, pk ∈ entryPicks s e →
      scoreStep { s with props := X } acc pk = scoreStep s acc pk) :
    calculate_score { s with props := X } e = calculate_score s e := by
  unfold calculate_score
  have hep : entryPicks { s with props := X } e = entryPicks s e := rfl
  rw [hep]
  exact foldlM_option_congr _ _ _ hstep 0

/-- C3 counterexample: on `store3`, whose prop 1 is already resolved with a
correct 5-point pick, resolving it again and then unresolving it drops the
entry's score from 5 to 0 instead of restoring it. -/
theorem resolve_unresolve_not_score_preserving :
    calculate_score (admin_resolve_prop (admin_resolve_prop store3 1 (some 2)) 1 none) entryE
      ≠ calculate_score store3 entryE := by
  decide

/-- C3 amended: resolving a prop and then unresolving it restores every
entry's score, provided the prop was unresolved beforehand (unresolving always
leaves `resolved = false`, so a previously resolved prop loses its scored
picks instead of returning to its pre-resolve score). -/
theorem resolve_unresolve_preserves_score_of_unresolved (s : Store) (pid aid : Nat)
    (e : EntryRec) (p : PropRec)
    (hfind : s.props.find? (fun q => q.id == pid) = some p)
    (hres : p.resolved = false) :
    calculate_score (admin_resolve_prop (admin_resolve_prop s pid (some aid)) pid none) e
      = calculate_score s e := by
  have hmem := List.mem_of_find?_eq_some hfind
  have hpred := List.find?_some hfind
  have hany : s.props.any (fun q => q.id == pid) = true :=
    List.any_eq_true.mpr ⟨p, hmem, hpred⟩
  have hany2 : ((s.props.map (resolveUpd pid (some aid))).any (fun q => q.id == pid)) = true := by
    rw [List.any_map]
    refine List.any_eq_true.mpr ⟨p, hmem, ?_⟩
    show ((resolveUpd pid (some aid) p).id == pid) = true
    rw [resolveUpd_id]
    exact hpred
  have h1 : admin_resolve_prop s pid (some aid)
      = { s with props := s.props.map (resolveUpd pid (some aid)) } := by
    unfold admin_resolve_prop
    rw [if_pos hany]
  have h2 : admin_resolve_prop { s with props := s.props.map (resolveUpd pid (some aid)) } pid none
      = { s with props := (s.props.map (resolveUpd pid (some aid))).map (resolveUpd pid none) } := by
    unfold admin_resolve_prop
    rw [if_pos hany2]
  rw [h1, h2, List.map_map]
  have hcomp : s.props.map (resolveUpd pid none ∘ resolveUpd pid (some aid))
      = s.props.map (resolveUpd pid none) :=
    List.map_congr_left (fun q _ => resolveUpd_comp pid aid q)
  rw [hcomp]
  apply calculate_score_set_props
  intro acc pk _
  rw [scoreStep_set_props]
  have hfmap : findProp (s.props.map (resolveUpd pid none)) pk.prop_id
      = (findProp s.props pk.prop_id).map (resolveUpd pid none) :=
    find?_map_idPreserving _ (resolveUpd_id pid none) _ _
  rw [hfmap]
  unfold scoreStep
  cases hfp : findProp s.props pk.prop_id with
  | none => rfl
  | some q =>
    rw [Option.map_some', Option.bind_eq_bind, Option.some_bind, Option.bind_eq_bind,
      Option.some_bind]
    by_cases hqp : (q.id == pid) = true
    · have e1 : q.id = pk.prop_id := by
        have h3 := List.find?_some hfp
        simpa using h3
      have e2 : q.id = pid := by simpa using hqp
      have e3 : pk.prop_id = pid := by rw [← e1, e2]
      have hq : q = p := by
        unfold findProp at hfp
        rw [e3] at hfp
        exact Option.some.inj (hfp.symm.trans hfind)
      have hu : resolveUpd pid none q
          = { q with correct_answer_id := none, resolved := false } := by
        unfold resolveUpd
        rw [if_pos hqp]
      have hqres : q.resolved = false := by rw [hq]; exact hres
      rw [hu, if_neg (by simp), if_neg (by simp [hqres])]
    · have hu : resolveUpd pid none q = q := by
        unfold resolveUpd
        rw [if_neg hqp]
      rw [hu]

/-- Witness for `resolve_unresolve_preserves_score_of_unresolved` on
`store3u` (prop 1 unresolved). -/
theorem resolve_unresolve_preserves_score_of_unresolved_witness :
    calculate_score (admin_resolve_prop (admin_resolve_prop store3u 1 (some 2)) 1 none) entryE
      = calculate_score store3u entryE :=
  resolve_unresolve_preserves_score_of_unresolved store3u 1 2 entryE (mkTestProp 1 1)
    (by decide) (by decide)

/-- Every answer row built by the add/edit answer loop belongs to the edited
prop and has a fresh id (at least the starting sequence value). -/
theorem mkAnswers_mem (pid : Nat) (rows : List AnswerRow) :
    ∀ (sid i : Nat) (a : AnswerRec),
      a ∈ mkAnswers pid sid i rows → a.prop_id = pid ∧ sid ≤ a.id := by
  induction rows with
  | nil =>
    intro sid i a ha
    simp [mkAnswers] at ha
  | cons r rest ih =>
    obtain ⟨t, pts⟩ := r
    intro sid i a ha
    unfold mkAnswers at ha
    by_cases h : (pyStrip t == "") = true
    · rw [if_pos h] at ha
      exact ih sid (i + 1) a ha
    · rw [if_neg h] at ha
      rcases List.mem_cons.mp ha with h1 | h1
      · rw [h1]
        exact ⟨rfl, Nat.le_refl sid⟩
      · obtain ⟨h2, h3⟩ := ih (sid + 1) (i + 1) a h1
        exact ⟨h2, Nat.le_trans (Nat.le_succ sid) h3⟩

/-- The texts of the answer rows built by the loop are exactly the trimmed
texts of the non-blank form rows, in order. -/
theorem mkAnswers_texts (pid : Nat) (rows : List AnswerRow) :
    ∀ (sid i : Nat),
      (mkAnswers pid sid i rows).map (fun a => a.text)
        = (rows.filter (fun r => !(pyStrip r.1 == ""))).map (fun r => pyStrip r.1) := by
  induction rows with
  | nil =>
    intro sid i
    rfl
  | cons r rest ih =>
    obtain ⟨t, pts⟩ := r
    intro sid i
    unfold mkAnswers
    by_cases h : (pyStrip t == "") = true
    · rw [if_pos h]
      rw [List.filter_cons_of_neg (by simpa using h)]
      exact ih sid (i + 1)
    · rw [if_neg h]
      rw [List.filter_cons_of_pos (by simpa using h)]
      rw [List.map_cons, List.map_cons, ih (sid + 1) (i + 1)]

/-- The edit update never changes a prop's id. -/
theorem editUpd_id (pid : Nat) (form : PropForm) (q : PropRec) :
    (editUpd pid form q).id = q.id := by
  unfold editUpd
  by_cases h : (q.id == pid) = true
  · rw [if_pos h]
  · rw [if_neg h]

/-- The edit update touches only question and note. -/
theorem editUpd_frame (pid : Nat) (form : PropForm) (q : PropRec) :
    (editUpd pid form q).resolved = q.resolved ∧
      (editUpd pid form q).correct_answer_id = q.correct_answer_id ∧
      (editUpd pid form q).order = q.order := by
  unfold editUpd
  by_cases h : (q.id == pid) = true
  · rw [if_pos h]
    exact ⟨rfl, rfl, rfl⟩
  · rw [if_neg h]
    exact ⟨rfl, rfl, rfl⟩

/-- C10: editing any prop deletes every one of its previous answers and
replaces them with fresh rows built from the form, while leaving its
`resolved` flag, `correct_answer_id`, `order`, and all picks and entries
untouched — and consequently, whenever the prop's `correct_answer_id` named
one of its own answers (as after editing a resolved prop whose invariant
held), that id no longer names any answer of the prop. -/
theorem edit_prop_frame (s : Store) (pid : Nat) (form : PropForm) (p : PropRec)
    (hfind : s.props.find? (fun q => q.id == pid) = some p)
    (hwf : ∀ a ∈ s.answers, a.id < s.nextAnswerId) :
    ((admin_edit_prop s pid form).picks = s.picks ∧
      (admin_edit_prop s pid form).entries = s.entries) ∧
    (∀ a ∈ s.answers, a.prop_id = pid → a ∉ (admin_edit_prop s pid form).answers) ∧
    (∃ p2, (admin_edit_prop s pid form).props.find? (fun q => q.id == pid) = some p2 ∧
      p2.resolved = p.resolved ∧ p2.correct_answer_id = p.correct_answer_id ∧
      p2.order = p.order) ∧
    (((admin_edit_prop s pid form).answers.filter (fun a => a.prop_id == pid)).map
        (fun a => a.text)
      = (form.answers.filter (fun r => !(pyStrip r.1 == ""))).map (fun r => pyStrip r.1)) ∧
    (∀ c, p.correct_answer_id = some c →
      (∃ a ∈ s.answers, a.id = c ∧ a.prop_id = pid) →
      ∀ a ∈ (admin_edit_prop s pid form).answers, a.prop_id = pid → a.id ≠ c) := by
  have hpred := List.find?_some hfind
  have hany : s.props.any (fun q => q.id == pid) = true :=
    List.any_eq_true.mpr ⟨p, List.mem_of_find?_eq_some hfind, hpred⟩
  have hS : admin_edit_prop s pid form
      = { s with
          props := s.props.map (editUpd pid form)
          answers := s.answers.filter (fun a => !(a.prop_id == pid))
            ++ mkAnswers pid s.nextAnswerId 0 form.answers
          nextAnswerId := s.nextAnswerId + keptRows form.answers } := by
    unfold admin_edit_prop
    rw [if_pos hany]
  refine ⟨⟨by rw [hS], by rw [hS]⟩, ?_, ?_, ?_, ?_⟩
  · intro a ha hap hmem
    rw [hS] at hmem
    rcases List.mem_append.mp hmem with h1 | h1
    · have h2 := (List.mem_filter.mp h1).2
      rw [hap] at h2
      simp at h2
    · have h2 := (mkAnswers_mem pid form.answers s.nextAnswerId 0 a h1).2
      exact Nat.not_lt.mpr h2 (hwf a ha)
  · rw [hS]
    refine ⟨editUpd pid form p, ?_, ?_⟩
    · show (s.props.map (editUpd pid form)).find? (fun q => q.id == pid)
        = some (editUpd pid form p)
      rw [find?_map_idPreserving _ (editUpd_id pid form), hfind, Option.map_some']
    · exact editUpd_frame pid form p
  · rw [hS]
    show ((s.answers.filter (fun a => !(a.prop_id == pid))
        ++ mkAnswers pid s.nextAnswerId 0 form.answers).filter
          (fun a => a.prop_id == pid)).map (fun a => a.text) = _
    rw [List.filter_append]
    have h1 : (s.answers.filter (fun a => !(a.prop_id == pid))).filter
        (fun a => a.prop_id == pid) = [] := by
      rw [List.filter_eq_nil_iff]
      intro a ha
      have h2 := (List.mem_filter.mp ha).2
      simpa using h2
    have h2 : (mkAnswers pid s.nextAnswerId 0 form.answers).filter
        (fun a => a.prop_id == pid) = mkAnswers pid s.nextAnswerId 0 form.answers := by
      rw [List.filter_eq_self]
      intro a ha
      have h3 := (mkAnswers_mem pid form.answers s.nextAnswerId 0 a ha).1
      simpa using h3
    rw [h1, h2, List.nil_append, mkAnswers_texts]
  · intro c _ hown a hmem hap
    have hcn : c < s.nextAnswerId := by
      obtain ⟨a0, ha0, he, _⟩ := hown
      rw [← he]
      exact hwf a0 ha0
    rw [hS] at hmem
    rcases List.mem_append.mp hmem with h1 | h1
    · have h2 := (List.mem_filter.mp h1).2
      rw [hap] at h2
      simp at h2
    · have h2 := (mkAnswers_mem pid form.answers s.nextAnswerId 0 a h1).2
      omega

/-- Witness for `edit_prop_frame`: editing the resolved prop 1 of `store3`
(whose `correct_answer_id` 1 names its own answer) with a one-row form. -/
theorem edit_prop_frame_witness :
    ((admin_edit_prop store3 1 formB).picks = store3.picks ∧
      (admin_edit_prop store3 1 formB).entries = store3.entries) ∧
    (∀ a ∈ store3.answers, a.prop_id = 1 → a ∉ (admin_edit_prop store3 1 formB).answers) ∧
    (∃ p2, (admin_edit_prop store3 1 formB).props.find? (fun q => q.id == 1) = some p2 ∧
      p2.resolved = prop3.resolved ∧ p2.correct_answer_id = prop3.correct_answer_id ∧
      p2.order = prop3.order) ∧
    (((admin_edit_prop store3 1 formB).answers.filter (fun a => a.prop_id == 1)).map
        (fun a => a.text)
      = (formB.answers.filter (fun r => !(pyStrip r.1 == ""))).map (fun r => pyStrip r.1)) ∧
    (∀ a ∈ (admin_edit_prop store3 1 formB).answers, a.prop_id = 1 → a.id ≠ 1) := by
  obtain ⟨h1, h2, h3, h4, h5⟩ := edit_prop_frame store3 1 formB prop3 (by decide) (by decide)
  exact ⟨h1, h2, h3, h4, h5 1 (by decide) (by decide)⟩

/-- Overwriting `order` fields never changes the ids in the prop table. -/
theorem applyOrders_ids (s : Store) (xid : Nat) (xo : Int) (yid : Nat) (yo : Int) :
    (applyOrders s xid xo yid yo).props.map (fun p => p.id)
      = s.props.map (fun p => p.id) := by
  unfold applyOrders swapOrdersFn
  rw [List.map_map]
  apply List.map_congr_left
  intro q _
  show (if q.id == xid then { q with order := xo }
    else if q.id == yid then { q with order := yo } else q).id = q.id
  by_cases h1 : (q.id == xid) = true
  · rw [if_pos h1]
  · rw [if_neg h1]
    by_cases h2 : (q.id == yid) = true
    · rw [if_pos h2]
    · rw [if_neg h2]

/-- Whatever the direction or target, the move handler only rewrites `order`
fields: the id sequence of the prop table (hence the set of props and their
count) is unchanged. -/
theorem move_props_ids (s : Store) (pid : Nat) (dir : String) :
    (admin_move_prop s pid dir).props.map (fun p => p.id)
      = s.props.map (fun p => p.id) := by
  unfold admin_move_prop
  cases h : (sortedProps s.props).findIdx? (fun p => p.id == pid) with
  | none => rfl
  | some i =>
    dsimp only
    split
    · split
      · apply applyOrders_ids
      · rfl
    · split
      · split
        · apply applyOrders_ids
        · rfl
      · rfl

/-- A `Pairwise` relation holds between the entries at any two indices in
order. -/
theorem pairwise_rel_of_getElem? {α : Type} (R : α → α → Prop) (l : List α)
    (h : List.Pairwise R l) (j k : Nat) (x y : α) (hjk : j < k)
    (hx : l[j]? = some x) (hy : l[k]? = some y) : R x y := by
  obtain ⟨hj, hx2⟩ := List.getElem?_eq_some_iff.mp hx
  obtain ⟨hk, hy2⟩ := List.getElem?_eq_some_iff.mp hy
  rw [← hx2, ← hy2]
  exact List.pairwise_iff_getElem.mp h j k hj hk hjk

/-- A `(order, id)`-sorted prop list with pairwise-distinct `order` values is
strictly increasing in `order`. -/
theorem pairwise_lt_of_sorted_nodup (l : List PropRec)
    (hs : List.Pairwise propLe l) (hd : (l.map (fun p => p.order)).Nodup) :
    List.Pairwise (fun a b : PropRec => a.order < b.order) l := by
  have hne : List.Pairwise (fun a b : PropRec => a.order ≠ b.order) l :=
    List.pairwise_map.mp hd
  refine (hs.and hne).imp ?_
  intro a b h
  rcases h.1 with h1 | h1
  · exact h1
  · exact absurd h1.1 h.2

/-- Two permutations of the same props that are both strictly sorted by
`order` are equal. -/
theorem pairwise_lt_unique : ∀ {l₁ l₂ : List PropRec}, l₁.Perm l₂ →
    List.Pairwise (fun a b : PropRec => a.order < b.order) l₁ →
    List.Pairwise (fun a b : PropRec => a.order < b.order) l₂ → l₁ = l₂ := by
  intro l₁
  induction l₁ with
  | nil =>
    intro l₂ hp _ _
    exact hp.nil_eq
  | cons x t ih =>
    intro l₂ hp h1 h2
    cases l₂ with
    | nil =>
      exact absurd hp.symm.nil_eq (by simp)
    | cons y t2 =>
      have hxy : x = y := by
        by_contra hne
        have hx2 : x ∈ y :: t2 := hp.mem_iff.mp (List.mem_cons_self x t)
        have hy1 : y ∈ x :: t := hp.mem_iff.mpr (List.mem_cons_self y t2)
        have hx : x ∈ t2 := by
          rcases List.mem_cons.mp hx2 with h | h
          · exact absurd h hne
          · exact h
        have hy : y ∈ t := by
          rcases List.mem_cons.mp hy1 with h | h
          · exact absurd h.symm hne
          · exact h
        have lt1 : x.order < y.order := (List.pairwise_cons.mp h1).1 y hy
        have lt2 : y.order < x.order := (List.pairwise_cons.mp h2).1 x hx
        omega
      subst hxy
      rw [ih hp.cons_inv (List.pairwise_cons.mp h1).2 (List.pairwise_cons.mp h2).2]

/-- Reading two adjacent entries splits a list into a prefix, the two entries,
and a suffix. -/
theorem list_eq_take_cons_cons_drop {α : Type} :
    ∀ (l : List α) (i : Nat) (u v : α), l[i]? = some u → l[i + 1]? = some v →
      l = l.take i ++ u :: v :: l.drop (i + 2) := by
  intro l
  induction l with
  | nil =>
    intro i u v hu _
    simp at hu
  | cons x t ih =>
    intro i u v hu hv
    cases i with
    | zero =>
      have hxu : x = u := by simpa using hu
      subst hxu
      cases t with
      | nil => simp at hv
      | cons y t2 =>
        have hyv : y = v := by simpa using hv
        subst hyv
        rfl
    | succ j =>
      have hu2 : t[j]? = some u := by simpa using hu
      have hv2 : t[j + 1]? = some v := by simpa using hv
      have hrec := ih j u v hu2 hv2
      show x :: t = (x :: t).take (j + 1) ++ u :: v :: (x :: t).drop (j + 3)
      rw [List.take_succ_cons, show j + 3 = (j + 2) + 1 by omega, List.drop_succ_cons,
        List.cons_append]
      rw [← hrec]

/-- In a duplicate-free list split around two middle entries, nothing in the
prefix or suffix equals either middle entry, and the two differ. -/
theorem nodup_mid_two {α : Type} (A B : List α) (u v : α)
    (h : (A ++ u :: v :: B).Nodup) :
    (∀ x ∈ A, x ≠ u ∧ x ≠ v) ∧ (∀ y ∈ B, y ≠ u ∧ y ≠ v) ∧ u ≠ v := by
  rw [List.nodup_append] at h
  obtain ⟨_, h2, h3⟩ := h
  rw [List.nodup_cons] at h2
  obtain ⟨h4, h5⟩ := h2
  rw [List.nodup_cons] at h5
  obtain ⟨h6, _⟩ := h5
  refine ⟨?_, ?_, ?_⟩
  · intro x hx
    have hnotin := h3 hx
    constructor
    · intro he
      subst he
      exact hnotin (List.mem_cons_self x (v :: B))
    · intro he
      subst he
      exact hnotin (List.mem_cons_of_mem u (List.mem_cons_self x B))
  · intro y hy
    constructor
    · intro he
      subst he
      exact h4 (List.mem_cons_of_mem v hy)
    · intro he
      subst he
      exact h6 hy
  · intro he
    subst he
    exact h4 (List.mem_cons_self u B)

/-- Swapping which id is checked first does not matter when the ids differ. -/
theorem applyOrders_comm (s : Store) (xid : Nat) (xo : Int) (yid : Nat) (yo : Int)
    (hne : xid ≠ yid) :
    applyOrders s xid xo yid yo = applyOrders s yid yo xid xo := by
  unfold applyOrders swapOrdersFn
  congr 1
  apply List.map_congr_left
  intro q _
  by_cases h1 : (q.id == xid) = true
  · have heq : q.id = xid := by simpa using h1
    have h2 : (q.id == yid) = false := by simp [heq, hne]
    rw [if_pos h1, if_neg (by simp [h2]), if_pos h1]
  · rw [if_neg h1]
    by_cases h2 : (q.id == yid) = true
    · rw [if_pos h2, if_pos h2]
    · rw [if_neg h2, if_neg h2, if_neg h1]

/-- A map that fixes every element of a list is the identity on it. -/
theorem map_fixed {α : Type} (f : α → α) (l : List α) (h : ∀ x ∈ l, f x = x) :
    l.map f = l :=
  (List.map_congr_left h).trans (List.map_id l)

/-- The heart of the move operation on distinct orders: swapping the `order`
values of the adjacent sorted entries at positions `j` and `j + 1` produces a
prop table whose sorted form is the old one with exactly those two entries
exchanged. -/
theorem sorted_swap_core (s : Store) (j : Nat) (u v : PropRec)
    (hN : (s.props.map (fun p => p.id)).Nodup)
    (hD : (s.props.map (fun p => p.order)).Nodup)
    (hu : (sortedProps s.props)[j]? = some u)
    (hv : (sortedProps s.props)[j + 1]? = some v) :
    sortedProps (applyOrders s v.id u.order u.id v.order).props
      = (sortedProps s.props).take j
        ++ { v with order := u.order } :: { u with order := v.order }
        :: (sortedProps s.props).drop (j + 2) := by
  set L := sortedProps s.props with hLdef
  have hperm : L.Perm s.props := List.perm_insertionSort propLe s.props
  have hNL : (L.map (fun p => p.id)).Nodup :=
    ((hperm.map (fun p => p.id)).symm).nodup hN
  have hDL : (L.map (fun p => p.order)).Nodup :=
    ((hperm.map (fun p => p.order)).symm).nodup hD
  have hsorted : List.Pairwise propLe L := List.sorted_insertionSort propLe s.props
  have hlt : List.Pairwise (fun a b : PropRec => a.order < b.order) L :=
    pairwise_lt_of_sorted_nodup L hsorted hDL
  have hline : L = L.take j ++ u :: v :: L.drop (j + 2) :=
    list_eq_take_cons_cons_drop L j u v hu hv
  have hids : ((L.take j).map (fun p => p.id)
      ++ u.id :: v.id :: (L.drop (j + 2)).map (fun p => p.id)).Nodup := by
    have h2 := hNL
    rw [hline, List.map_append, List.map_cons, List.map_cons] at h2
    exact h2
  obtain ⟨hpre, hsuf, huv⟩ := nodup_mid_two _ _ u.id v.id hids
  have hfu : swapOrdersFn v.id u.order u.id v.order u = { u with order := v.order } := by
    unfold swapOrdersFn
    rw [if_neg (by simp [huv]), if_pos (by simp)]
  have hfv : swapOrdersFn v.id u.order u.id v.order v = { v with order := u.order } := by
    unfold swapOrdersFn
    rw [if_pos (by simp)]
  have htakefix : ∀ x ∈ L.take j, swapOrdersFn v.id u.order u.id v.order x = x := by
    intro x hx
    have hxid := hpre x.id (List.mem_map_of_mem (fun p => p.id) hx)
    unfold swapOrdersFn
    rw [if_neg (by simp [hxid.2]), if_neg (by simp [hxid.1])]
  have hdropfix : ∀ x ∈ L.drop (j + 2), swapOrdersFn v.id u.order u.id v.order x = x := by
    intro x hx
    have hxid := hsuf x.id (List.mem_map_of_mem (fun p => p.id) hx)
    unfold swapOrdersFn
    rw [if_neg (by simp [hxid.2]), if_neg (by simp [hxid.1])]
  have hmapdec : L.map (swapOrdersFn v.id u.order u.id v.order)
      = L.take j ++ { u with order := v.order } :: { v with order := u.order }
        :: L.drop (j + 2) := by
    conv_lhs => rw [hline]
    rw [List.map_append, List.map_cons, List.map_cons, hfu, hfv,
      map_fixed _ _ htakefix, map_fixed _ _ hdropfix]
  have hpermT : (s.props.map (swapOrdersFn v.id u.order u.id v.order)).Perm
      (L.take j ++ { v with order := u.order } :: { u with order := v.order }
        :: L.drop (j + 2)) := by
    refine ((hperm.symm.map _).trans ?_)
    rw [hmapdec]
    exact List.Perm.append_left (L.take j)
      (List.Perm.swap { v with order := u.order } { u with order := v.order } _)
  have horders : ((L.take j ++ { v with order := u.order } :: { u with order := v.order }
      :: L.drop (j + 2)).map (fun p => p.order)) = L.map (fun p => p.order) := by
    conv_rhs => rw [hline]
    simp [List.map_append]
  have hltT : List.Pairwise (fun a b : PropRec => a.order < b.order)
      (L.take j ++ { v with order := u.order } :: { u with order := v.order }
        :: L.drop (j + 2)) := by
    have h1 : List.Pairwise (fun x y : Int => x < y) (L.map (fun p => p.order)) :=
      List.pairwise_map.mpr hlt
    rw [← horders] at h1
    exact List.pairwise_map.mp h1
  have houtD : ((sortedProps (s.props.map (swapOrdersFn v.id u.order u.id v.order))).map
      (fun p => p.order)).Nodup := by
    have h3 : ((L.take j ++ { v with order := u.order } :: { u with order := v.order }
        :: L.drop (j + 2)).map (fun p => p.order)).Nodup := by
      rw [horders]
      exact hDL
    have h2 := (List.perm_insertionSort propLe
      (s.props.map (swapOrdersFn v.id u.order u.id v.order))).trans hpermT
    exact ((h2.map (fun p => p.order)).symm).nodup h3
  have houtlt : List.Pairwise (fun a b : PropRec => a.order < b.order)
      (sortedProps (s.props.map (swapOrdersFn v.id u.order u.id v.order))) :=
    pairwise_lt_of_sorted_nodup _
      (List.sorted_insertionSort propLe _) houtD
  have houtperm : (sortedProps (s.props.map (swapOrdersFn v.id u.order u.id v.order))).Perm
      (L.take j ++ { v with order := u.order } :: { u with order := v.order }
        :: L.drop (j + 2)) :=
    (List.perm_insertionSort propLe _).trans hpermT
  exact pairwise_lt_unique houtperm houtlt hltT

/-- `sortedProps` preserves duplicate-freeness of the id column. -/
theorem sortedProps_nodup_ids (s : Store)
    (hN : (s.props.map (fun p => p.id)).Nodup) :
    ((sortedProps s.props).map (fun p => p.id)).Nodup :=
  (((List.perm_insertionSort propLe s.props).map (fun p => p.id)).symm).nodup hN

/-- With pairwise-distinct order values, the sorted prop list is strictly
increasing in `order`. -/
theorem sortedProps_pairwise_lt (s : Store)
    (hD : (s.props.map (fun p => p.order)).Nodup) :
    List.Pairwise (fun a b : PropRec => a.order < b.order) (sortedProps s.props) :=
  pairwise_lt_of_sorted_nodup _ (List.sorted_insertionSort propLe s.props)
    ((((List.perm_insertionSort propLe s.props).map (fun p => p.order)).symm).nodup hD)

/-- C4 counterexample: in the store whose `(order, id)`-sorted prop list is
`[id 5 (order 3), id 6 (order 3), id 2 (order 4)]` — duplicate orders with an
id out of line — moving prop 2 up yields sorted ids `[2, 5, 6]`, not the
adjacent exchange `[5, 2, 6]`: the moved prop jumps over both other props. -/
theorem move_up_not_adjacent_swap :
    (sortedProps store4.props).map (fun p => p.id) = [5, 6, 2] ∧
    (sortedProps (admin_move_prop store4 2 "up").props).map (fun p => p.id) = [2, 5, 6] ∧
    (sortedProps (admin_move_prop store4 2 "up").props).map (fun p => p.id) ≠ [5, 2, 6] := by
  decide

/-- C4 amended: the move operation never changes the id column or the count,
and moving the first sorted prop up or the last sorted prop down is a no-op —
all unconditionally.  Provided additionally that all props carry
pairwise-distinct `order` values (and distinct ids), moving any interior prop
exchanges its sorted position with exactly the adjacent neighbour in the move
direction, by swapping the two `order` values.  (With duplicated `order`
values the exchange clause fails, see the counterexample; the `±1` nudge
clause then never fires.) -/
theorem move_prop_spec (s : Store) (pid : Nat) (dir : String) :
    ((admin_move_prop s pid dir).props.map (fun p => p.id)
        = s.props.map (fun p => p.id)) ∧
    ((admin_move_prop s pid dir).props.length = s.props.length) ∧
    (∀ i, (sortedProps s.props).findIdx? (fun p => p.id == pid) = some i →
      (i = 0 → admin_move_prop s pid "up" = s) ∧
      (i = (sortedProps s.props).length - 1 → admin_move_prop s pid "down" = s)) ∧
    ((s.props.map (fun p => p.id)).Nodup → (s.props.map (fun p => p.order)).Nodup →
      ∀ i, (sortedProps s.props).findIdx? (fun p => p.id == pid) = some i →
      (∀ a b, 0 < i → (sortedProps s.props)[i]? = some a →
        (sortedProps s.props)[i - 1]? = some b →
        sortedProps (admin_move_prop s pid "up").props
          = (sortedProps s.props).take (i - 1)
            ++ { a with order := b.order } :: { b with order := a.order }
            :: (sortedProps s.props).drop (i + 1)) ∧
      (∀ a b, i + 1 < (sortedProps s.props).length →
        (sortedProps s.props)[i]? = some a →
        (sortedProps s.props)[i + 1]? = some b →
        sortedProps (admin_move_prop s pid "down").props
          = (sortedProps s.props).take i
            ++ { b with order := a.order } :: { a with order := b.order }
            :: (sortedProps s.props).drop (i + 2))) := by
  refine ⟨move_props_ids s pid dir, ?_, ?_, ?_⟩
  · have h1 := congrArg List.length (move_props_ids s pid dir)
    simpa using h1
  · intro i hidx
    constructor
    · intro h
      subst h
      unfold admin_move_prop
      rw [hidx]
      simp
    · intro h
      unfold admin_move_prop
      rw [hidx]
      dsimp only
      rw [if_neg (by simp), if_neg (by simp [h]; omega)]
  · intro hN hD i hidx
    constructor
    · intro a b h0 ha hb
      have hlt := sortedProps_pairwise_lt s hD
      have hba : b.order < a.order :=
        pairwise_rel_of_getElem? _ _ hlt (i - 1) i b a (by omega) hb ha
      have hbne : (b.order == a.order) = false := by
        rw [beq_eq_false_iff_ne]
        omega
      have hmove : admin_move_prop s pid "up" = applyOrders s a.id b.order b.id a.order := by
        unfold admin_move_prop
        rw [hidx]
        dsimp only
        rw [if_pos (by simp [h0]), ha, hb]
        dsimp only
        rw [if_neg (by rw [hbne]; exact Bool.false_ne_true)]
      rw [hmove]
      have hv : (sortedProps s.props)[(i - 1) + 1]? = some a := by
        rw [Nat.sub_add_cancel h0]
        exact ha
      have hcore := sorted_swap_core s (i - 1) b a hN hD hb hv
      rw [show (i - 1) + 2 = i + 1 by omega] at hcore
      exact hcore
    · intro a b hlen ha hb
      have hlt := sortedProps_pairwise_lt s hD
      have hab : a.order < b.order :=
        pairwise_rel_of_getElem? _ _ hlt i (i + 1) a b (by omega) ha hb
      have hbne : (b.order == a.order) = false := by
        rw [beq_eq_false_iff_ne]
        omega
      have hmove : admin_move_prop s pid "down" = applyOrders s a.id b.order b.id a.order := by
        unfold admin_move_prop
        rw [hidx]
        dsimp only
        rw [if_neg (by simp), if_pos (by simp [hlen]), ha, hb]
        dsimp only
        rw [if_neg (by rw [hbne]; exact Bool.false_ne_true)]
      have hNL := sortedProps_nodup_ids s hN
      have hidne : a.id ≠ b.id :=
        pairwise_rel_of_getElem? _ _ (List.pairwise_map.mp hNL) i (i + 1) a b
          (by omega) ha hb
      rw [hmove, applyOrders_comm s a.id b.order b.id a.order hidne]
      exact sorted_swap_core s i a b hN hD ha hb

/-- Witness for `move_prop_spec` on the three-prop store with distinct orders
1, 2, 3: moving the first prop up and the last prop down are no-ops, and
moving prop 2 (sorted position 1) up exchanges it with prop 1. -/
theorem move_prop_spec_witness :
    ((admin_move_prop store4w 2 "up").props.map (fun p => p.id)
        = store4w.props.map (fun p => p.id)) ∧
    ((admin_move_prop store4w 2 "up").props.length = store4w.props.length) ∧
    (admin_move_prop store4w 1 "up" = store4w) ∧
    (admin_move_prop store4w 3 "down" = store4w) ∧
    sortedProps (admin_move_prop store4w 2 "up").props
      = (sortedProps store4w.props).take (1 - 1)
        ++ { mkTestProp 2 2 with order := (mkTestProp 1 1).order }
        :: { mkTestProp 1 1 with order := (mkTestProp 2 2).order }
        :: (sortedProps store4w.props).drop (1 + 1) :=
  ⟨(move_prop_spec store4w 2 "up").1,
    (move_prop_spec store4w 2 "up").2.1,
    ((move_prop_spec store4w 1 "up").2.2.1 0 (by decide)).1 rfl,
    ((move_prop_spec store4w 3 "down").2.2.1 2 (by decide)).2 (by decide),
    ((move_prop_spec store4w 2 "up").2.2.2 (by decide) (by decide) 1 (by decide)).1
      (mkTestProp 2 2) (mkTestProp 1 1) (by decide) (by decide) (by decide)⟩

end SuperBowl
